import Mathlib

/-!
Verification of the S3 bucket/folder size scripts (getS3Size) against their
specification.  The Python sources are shallowly embedded: object listings
become lists of key/size pairs, the CloudWatch and subprocess backends become
explicit oracle functions, Python dicts with insertion order become
association lists, and the float arithmetic of format_size becomes exact
rational arithmetic (every division performed by the code is by 1024, which is
exact in binary floating point over the ranges reached before the final unit
tier, as noted at the definition).
-/

namespace S3Scripts

/-! ### Object listings and single-level folder grouping
    (s3_folder_sizes.py, s3_folder_sizes_2level.py,
     s3_bucket_sizes_with_folder.py) -/

/-- An S3 object as it appears in a listing page: its key and its size in
bytes (`obj['Key']`, `obj['Size']`). -/
structure S3Object where
  key : List Char
  size : Nat
deriving DecidableEq

/-- Python `str.split('/')` on a list of characters.  `splitSlash [] = [[]]`,
matching Python where `''.split('/') == ['']`. -/
def splitSlash : List Char → List (List Char)
  | [] => [[]]
  | c :: rest =>
    if c = '/' then [] :: splitSlash rest
    else
      match splitSlash rest with
      | [] => [[c]]
      | p :: ps => (c :: p) :: ps

/-- Python `'/'.join(parts)`. -/
def joinSlash : List (List Char) → List Char
  | [] => []
  | [p] => p
  | p :: ps => p ++ '/' :: joinSlash ps

/-- `defaultdict(int)`-style accumulation into an insertion-ordered
association list: `folder_sizes[folder] += size`. -/
def addTo : List (List Char × Nat) → List Char → Nat → List (List Char × Nat)
  | [], k, v => [(k, v)]
  | (k0, v0) :: rest, k, v =>
    if k0 = k then (k0, v0 + v) :: rest else (k0, v0) :: addTo rest k v

/-- `stripped_key = key[len(prefix):] if prefix else key`
(s3_folder_sizes.py line 23). -/
def strippedKey (pre key : List Char) : List Char :=
  if pre = [] then key else key.drop pre.length

/-- The grouping key of s3_folder_sizes.py lines 24-25:
`parts = stripped_key.split('/'); folder = parts[0] if '/' in stripped_key
else '(root)'`. -/
def folderKey (pre key : List Char) : List Char :=
  let stripped := strippedKey pre key
  let parts := splitSlash stripped
  if '/' ∈ stripped then parts.headD [] else "(root)".data

/-- `get_s3_folder_sizes` of s3_folder_sizes.py: the bucket listing is passed
in explicitly as the sequence of objects the paginator yields. -/
def get_s3_folder_sizes (objects : List S3Object) (pre : List Char) :
    List (List Char × Nat) :=
  objects.foldl (fun m obj => addTo m (folderKey pre obj.key) obj.size) []

/-- The grouping key of s3_folder_sizes_2level.py lines 31-37:
`(root)` when the stripped key splits into a single part, otherwise
`'/'.join(parts[:depth])`. -/
def folderKeyDepth (pre : List Char) (depth : Nat) (key : List Char) :
    List Char :=
  let stripped := strippedKey pre key
  let parts := splitSlash stripped
  if parts.length = 1 then "(root)".data else joinSlash (parts.take depth)

/-- `get_s3_folder_sizes` of s3_folder_sizes_2level.py (depth-parameterised
variant). -/
def get_s3_folder_sizes_depth (objects : List S3Object) (pre : List Char)
    (depth : Nat) : List (List Char × Nat) :=
  objects.foldl (fun m obj => addTo m (folderKeyDepth pre depth obj.key) obj.size) []

/-- Per-subfolder accumulator of s3_bucket_sizes_with_folder.py:
`{'size': ..., 'count': ...}`. -/
structure SubfolderStat where
  size : Nat
  count : Nat
deriving DecidableEq

/-- Get-or-insert-then-increment on the subfolder dictionary
(s3_bucket_sizes_with_folder.py lines 97-101). -/
def addStat : List (List Char × SubfolderStat) → List Char → Nat →
    List (List Char × SubfolderStat)
  | [], k, v => [(k, ⟨v, 1⟩)]
  | (k0, s) :: rest, k, v =>
    if k0 = k then (k0, ⟨s.size + v, s.count + 1⟩) :: rest
    else (k0, s) :: addStat rest k v

/-- `if folder_path and not folder_path.endswith('/'): folder_path += '/'`
(s3_bucket_sizes_with_folder.py lines 56-57). -/
def normalizeFolderPath (folder_path : List Char) : List Char :=
  if folder_path ≠ [] ∧ folder_path.getLast? ≠ some '/' then
    folder_path ++ ['/']
  else folder_path

/-- The subfolder key of s3_bucket_sizes_with_folder.py lines 86-94:
`relative_path = obj_key[len(folder_path):]`; a key containing a further
slash is attributed to `f"\x7bfolder_path\x7d\x7bsubfolder\x7d/"`, otherwise
to `folder_path + "(archivos directos)"`. -/
def subfolderKey (fp key : List Char) : List Char :=
  let relative := key.drop fp.length
  if '/' ∈ relative then fp ++ (splitSlash relative).headD [] ++ ['/']
  else fp ++ "(archivos directos)".data

/-- `get_folder_size_s3` of s3_bucket_sizes_with_folder.py: returns the
normalized folder path, the total size, the object count and the subfolder
dictionary, folding over the objects the paginator yields. -/
def get_folder_size_s3 (objects : List S3Object) (folder_path : List Char) :
    List Char × Nat × Nat × List (List Char × SubfolderStat) :=
  let fp := normalizeFolderPath folder_path
  let r := objects.foldl
    (fun (acc : Nat × Nat × List (List Char × SubfolderStat)) obj =>
      (acc.1 + obj.size, acc.2.1 + 1,
        addStat acc.2.2 (subfolderKey fp obj.key) obj.size))
    (0, 0, [])
  (fp, r.1, r.2.1, r.2.2)

/-- The concrete listing of the folder-grouping test case: the objects under
the base prefix with the byte sizes fixed by the specification. -/
def demoObjects : List S3Object :=
  [⟨"base/a/x.txt".data, 10⟩, ⟨"base/a/y.txt".data, 5⟩,
   ⟨"base/b.txt".data, 3⟩, ⟨"base/c/z.txt".data, 2⟩]

/-- C2, counterexample: on the listed objects neither grouping function
produces an entry keyed by the sentinel named in the claim.  The
single-level grouping keys the direct file under `(root)`, and the
folder-analysis function keys it under the base path followed by
`(archivos directos)`; no key `(direct files)` exists in either mapping, so
the claimed mapping is not what the code yields. -/
theorem C2_counterexample :
    (get_s3_folder_sizes demoObjects "base/".data).lookup "(direct files)".data
        = none ∧
    (get_folder_size_s3 demoObjects "base/".data).2.2.2.lookup
        "(direct files)".data = none ∧
    (get_folder_size_s3 demoObjects "base/".data).2.2.2.lookup
        "base/(direct files)".data = none ∧
    ¬ ("(direct files)".data, 3) ∈ get_s3_folder_sizes demoObjects "base/".data := by
  decide

/-- C2, amended: for the listing with the base prefix containing exactly the
four specified objects, the single-level grouping yields sizes 15 for `a`,
3 for the direct file (under the code sentinel `(root)`), and 2 for `c`;
the folder-analysis function reports total size 20, object count 4, and the
same partition under its keys `base/a/`, `base/(archivos directos)` and
`base/c/`. -/
theorem C2_folder_grouping :
    get_s3_folder_sizes demoObjects "base/".data =
      [("a".data, 15), ("(root)".data, 3), ("c".data, 2)] ∧
    get_folder_size_s3 demoObjects "base/".data =
      ("base/".data, 20, 4,
        [("base/a/".data, ⟨15, 2⟩), ("base/(archivos directos)".data, ⟨3, 1⟩),
         ("base/c/".data, ⟨2, 1⟩)]) := by
  decide

/-- Accumulating `v` under any key grows the sum of the stored sizes by
exactly `v`. -/
lemma addTo_sum (m : List (List Char × Nat)) (k : List Char) (v : Nat) :
    ((addTo m k v).map (fun e => e.2)).sum = (m.map (fun e => e.2)).sum + v := by
  induction m with
  | nil => simp [addTo]
  | cons hd tl ih =>
    obtain ⟨k0, v0⟩ := hd
    by_cases h : k0 = k
    · simp only [addTo, if_pos h, List.map_cons, List.sum_cons]
      omega
    · simp only [addTo, if_neg h, List.map_cons, List.sum_cons, ih]
      omega

/-- Accumulating one object under any key grows the sum of the stored sizes
by its size. -/
lemma addStat_size_sum (m : List (List Char × SubfolderStat)) (k : List Char)
    (v : Nat) :
    ((addStat m k v).map (fun e => e.2.size)).sum =
      (m.map (fun e => e.2.size)).sum + v := by
  induction m with
  | nil => simp [addStat]
  | cons hd tl ih =>
    obtain ⟨k0, s⟩ := hd
    by_cases h : k0 = k
    · simp only [addStat, if_pos h, List.map_cons, List.sum_cons]
      omega
    · simp only [addStat, if_neg h, List.map_cons, List.sum_cons, ih]
      omega

/-- Accumulating one object under any key grows the sum of the stored counts
by one. -/
lemma addStat_count_sum (m : List (List Char × SubfolderStat)) (k : List Char)
    (v : Nat) :
    ((addStat m k v).map (fun e => e.2.count)).sum =
      (m.map (fun e => e.2.count)).sum + 1 := by
  induction m with
  | nil => simp [addStat]
  | cons hd tl ih =>
    obtain ⟨k0, s⟩ := hd
    by_cases h : k0 = k
    · simp only [addStat, if_pos h, List.map_cons, List.sum_cons]
      omega
    · simp only [addStat, if_neg h, List.map_cons, List.sum_cons, ih]
      omega

/-- Invariant of the accumulation loop of `get_folder_size_s3`: starting from
any accumulator whose dictionary sums agree with its running total and
count, they still agree after folding any list of objects. -/
lemma folder_fold_invariant (objects : List S3Object) (fp : List Char)
    (t c : Nat) (m : List (List Char × SubfolderStat))
    (h1 : (m.map (fun e => e.2.size)).sum = t)
    (h2 : (m.map (fun e => e.2.count)).sum = c) :
    ((objects.foldl
      (fun (acc : Nat × Nat × List (List Char × SubfolderStat)) obj =>
        (acc.1 + obj.size, acc.2.1 + 1,
          addStat acc.2.2 (subfolderKey fp obj.key) obj.size))
      (t, c, m)).2.2.map (fun e => e.2.size)).sum =
      (objects.foldl
        (fun (acc : Nat × Nat × List (List Char × SubfolderStat)) obj =>
          (acc.1 + obj.size, acc.2.1 + 1,
            addStat acc.2.2 (subfolderKey fp obj.key) obj.size))
        (t, c, m)).1 ∧
    ((objects.foldl
      (fun (acc : Nat × Nat × List (List Char × SubfolderStat)) obj =>
        (acc.1 + obj.size, acc.2.1 + 1,
          addStat acc.2.2 (subfolderKey fp obj.key) obj.size))
      (t, c, m)).2.2.map (fun e => e.2.count)).sum =
      (objects.foldl
        (fun (acc : Nat × Nat × List (List Char × SubfolderStat)) obj =>
          (acc.1 + obj.size, acc.2.1 + 1,
            addStat acc.2.2 (subfolderKey fp obj.key) obj.size))
        (t, c, m)).2.1 := by
  induction objects generalizing t c m with
  | nil => exact ⟨h1, h2⟩
  | cons obj rest ih =>
    simp only [List.foldl_cons]
    exact ih (t + obj.size) (c + 1)
      (addStat m (subfolderKey fp obj.key) obj.size)
      (by rw [addStat_size_sum, h1]) (by rw [addStat_count_sum, h2])

/-- The single-level grouping fold adds exactly the listed sizes to the sum
stored in any starting dictionary. -/
lemma group_fold_sum (objects : List S3Object) (pre : List Char)
    (m : List (List Char × Nat)) :
    ((objects.foldl (fun m obj => addTo m (folderKey pre obj.key) obj.size) m).map
        (fun e => e.2)).sum =
      (m.map (fun e => e.2)).sum + (objects.map S3Object.size).sum := by
  induction objects generalizing m with
  | nil => simp
  | cons obj rest ih =>
    simp only [List.foldl_cons, ih, addTo_sum, List.map_cons, List.sum_cons]
    omega

/-- C3: every object is attributed to exactly one grouping key, so after
`get_folder_size_s3` completes, the per-subfolder sizes sum to the reported
total size and the per-subfolder counts sum to the reported object count;
likewise the single-level grouping `get_s3_folder_sizes` distributes the
total listed bytes over its keys without loss or duplication. -/
theorem C3_partition_property (objects : List S3Object)
    (folder_path pre : List Char) :
    ((get_folder_size_s3 objects folder_path).2.2.2.map
        (fun e => e.2.size)).sum =
      (get_folder_size_s3 objects folder_path).2.1 ∧
    ((get_folder_size_s3 objects folder_path).2.2.2.map
        (fun e => e.2.count)).sum =
      (get_folder_size_s3 objects folder_path).2.2.1 ∧
    ((get_s3_folder_sizes objects pre).map (fun e => e.2)).sum =
      (objects.map S3Object.size).sum := by
  refine ⟨?_, ?_, ?_⟩
  · exact (folder_fold_invariant objects (normalizeFolderPath folder_path)
      0 0 [] rfl rfl).1
  · exact (folder_fold_invariant objects (normalizeFolderPath folder_path)
      0 0 [] rfl rfl).2
  · simpa [get_s3_folder_sizes] using group_fold_sum objects pre []

/-- `split` never returns an empty list of parts. -/
lemma splitSlash_ne_nil (l : List Char) : splitSlash l ≠ [] := by
  induction l with
  | nil => simp [splitSlash]
  | cons c rest ih =>
    simp only [splitSlash]
    by_cases h : c = '/'
    · simp [h]
    · simp only [if_neg h]
      cases hs : splitSlash rest with
      | nil => simp
      | cons p ps => simp

/-- The stripped key splits into a single part exactly when it contains no
slash. -/
lemma splitSlash_length_one (l : List Char) :
    (splitSlash l).length = 1 ↔ '/' ∉ l := by
  induction l with
  | nil => simp [splitSlash]
  | cons c rest ih =>
    by_cases h : c = '/'
    · subst h
      constructor
      · intro hlen
        have hsp : splitSlash ('/' :: rest) = [] :: splitSlash rest := by
          simp [splitSlash]
        rw [hsp, List.length_cons] at hlen
        exact absurd (List.length_eq_zero.mp (by omega))
          (splitSlash_ne_nil rest)
      · intro hmem
        exact absurd (List.mem_cons_self _ _) hmem
    · simp only [splitSlash, if_neg h]
      cases hs : splitSlash rest with
      | nil => exact absurd hs (splitSlash_ne_nil rest)
      | cons p ps =>
        simp only [List.length_cons, List.mem_cons]
        rw [hs] at ih
        simp only [List.length_cons] at ih
        constructor
        · intro hlen hmem
          rcases hmem with hc | hmem
          · exact h hc.symm
          · exact (ih.mp hlen) hmem
        · intro hmem
          exact ih.mpr (fun hr => hmem (Or.inr hr))

/-- Joining the first part alone returns the head of the split. -/
lemma joinSlash_take_one (l : List Char) :
    joinSlash ((splitSlash l).take 1) = (splitSlash l).headD [] := by
  cases hs : splitSlash l with
  | nil => exact absurd hs (splitSlash_ne_nil l)
  | cons p ps => simp [joinSlash]

/-- At depth 1 the depth-parameterised grouping key coincides with the
single-level grouping key. -/
lemma folderKeyDepth_one (pre key : List Char) :
    folderKeyDepth pre 1 key = folderKey pre key := by
  unfold folderKeyDepth folderKey
  by_cases h : '/' ∈ strippedKey pre key
  · rw [if_neg (fun hlen => (splitSlash_length_one _).mp hlen h), if_pos h]
    exact joinSlash_take_one _
  · rw [if_pos ((splitSlash_length_one _).mpr h), if_neg h]

/-- C10: on every listing and base prefix the depth-parameterised grouping
function, called with depth 1, produces exactly the same insertion-ordered
mapping as the single-level grouping function. -/
theorem C10_depth_one_refines_single_level (objects : List S3Object)
    (pre : List Char) :
    get_s3_folder_sizes_depth objects pre 1 = get_s3_folder_sizes objects pre := by
  unfold get_s3_folder_sizes_depth get_s3_folder_sizes
  congr 1
  funext m obj
  rw [folderKeyDepth_one]

/-! ### CloudWatch metrics path
    (get_bucket_size_cloudwatch in s3_bucket_sizes_fast.py and
     s3_bucket_sizes_with_folder.py) -/

/-- One CloudWatch datapoint: its timestamp and the `Average` statistic.
The code takes `int(latest['Average'])`; sizes are non-negative, so the
truncated value is modelled as a natural number. -/
structure Datapoint where
  timestamp : Nat
  average : Nat
deriving DecidableEq

/-- `max(response['Datapoints'], key=lambda x: x['Timestamp'])`.  Python
`max` keeps the earliest element among equal maximal keys; so does this
recursion, which prefers the head on ties. -/
def latestDatapoint : List Datapoint → Option Datapoint
  | [] => none
  | d :: rest =>
    match latestDatapoint rest with
    | none => some d
    | some m => if d.timestamp < m.timestamp then some m else some d

/-- The `Average` of the most recent datapoint, 0 when there is none. -/
def latestAverage (dps : List Datapoint) : Nat :=
  match latestDatapoint dps with
  | some d => d.average
  | none => 0

/-- The enumerated storage-tier dimensions of the fallback branch
(s3_bucket_sizes_fast.py lines 78-81). -/
def storage_classes : List String :=
  ["StandardStorage", "StandardIAStorage", "ReducedRedundancyStorage",
   "GlacierStorage", "DeepArchiveStorage", "IntelligentTieringFAStorage",
   "IntelligentTieringIAStorage", "IntelligentTieringAAStorage",
   "IntelligentTieringAIAStorage", "IntelligentTieringDAAStorage"]

/-- The CloudWatch backend as an oracle: a `get_metric_statistics` call for
one `StorageType` dimension either returns the datapoint list or raises. -/
abbrev CwQuery := String → Except String (List Datapoint)

/-- One iteration of the fallback loop (s3_bucket_sizes_fast.py lines
84-100): query one storage tier and add its most recent average to the
running total when it has datapoints. -/
def fallbackStep (q : CwQuery) (total : Nat) (sc : String) :
    Except String Nat := do
  let dps2 ← q sc
  if dps2 ≠ [] then return total + latestAverage dps2
  else return total

/-- The body of `get_bucket_size_cloudwatch` before its exception handler:
query the StandardStorage tier; if it has datapoints return the most recent
average, otherwise sum the most recent average over all enumerated storage
tiers, each empty tier contributing nothing.  A raised backend error
propagates. -/
def bucketSizeBytes (q : CwQuery) : Except String Nat := do
  let dps ← q "StandardStorage"
  if dps ≠ [] then
    return latestAverage dps
  else
    storage_classes.foldlM (fallbackStep q) 0

/-- `get_bucket_size_cloudwatch`: the surrounding `try/except` converts any
backend failure into a zero-size result for that bucket. -/
def get_bucket_size_cloudwatch (q : CwQuery) (bucket_name : String) :
    String × Nat :=
  match bucketSizeBytes q with
  | .ok n => (bucket_name, n)
  | .error _ => (bucket_name, 0)

/-- `latestDatapoint` returns `none` only on the empty list. -/
lemma latestDatapoint_eq_none_iff (dps : List Datapoint) :
    latestDatapoint dps = none ↔ dps = [] := by
  cases dps with
  | nil => simp [latestDatapoint]
  | cons d rest =>
    simp only [latestDatapoint]
    cases latestDatapoint rest with
    | none => simp
    | some m =>
      by_cases h : d.timestamp < m.timestamp <;> simp [h]

/-- The datapoint selected by `latestDatapoint` belongs to the list and its
timestamp is maximal: it is the most recent datapoint. -/
lemma latestDatapoint_spec (dps : List Datapoint) :
    ∀ d, latestDatapoint dps = some d →
      d ∈ dps ∧ ∀ d2 ∈ dps, d2.timestamp ≤ d.timestamp := by
  induction dps with
  | nil => intro d h; simp [latestDatapoint] at h
  | cons hd rest ih =>
    intro d h
    simp only [latestDatapoint] at h
    cases hr : latestDatapoint rest with
    | none =>
      simp only [hr] at h
      obtain rfl : hd = d := by simpa using h
      have hrest : rest = [] := (latestDatapoint_eq_none_iff rest).mp hr
      subst hrest
      refine ⟨List.mem_cons_self _ _, ?_⟩
      intro d2 hd2
      rcases List.mem_singleton.mp hd2 with rfl
      exact le_refl _
    | some m =>
      simp only [hr] at h
      obtain ⟨hm, hmax⟩ := ih m hr
      by_cases hts : hd.timestamp < m.timestamp
      · rw [if_pos hts] at h
        obtain rfl : m = d := by simpa using h
        refine ⟨List.mem_cons_of_mem _ hm, ?_⟩
        intro d2 hd2
        rcases List.mem_cons.mp hd2 with rfl | hd2
        · exact le_of_lt hts
        · exact hmax d2 hd2
      · rw [if_neg hts] at h
        obtain rfl : hd = d := by simpa using h
        refine ⟨List.mem_cons_self _ _, ?_⟩
        intro d2 hd2
        rcases List.mem_cons.mp hd2 with rfl | hd2
        · exact le_refl _
        · exact le_trans (hmax d2 hd2) (not_lt.mp hts)

/-- Binding a successful result in the `Except` monad applies the
continuation. -/
lemma exceptOkBind {α β : Type} (a : α) (f : α → Except String β) :
    (Except.ok a >>= f) = f a := rfl

/-- One fallback iteration, when the backend query succeeds, adds that
tier's most recent average (zero when the tier has no datapoints). -/
lemma fallbackStep_ok (q : CwQuery) (g : String → List Datapoint)
    (hq : ∀ s, q s = .ok (g s)) (acc : Nat) (sc : String) :
    fallbackStep q acc sc = .ok (acc + latestAverage (g sc)) := by
  unfold fallbackStep
  rw [hq sc]
  simp only [exceptOkBind]
  by_cases h : g sc = []
  · rw [if_neg (fun hc => hc h), h]
    simp [latestAverage, latestDatapoint]
    rfl
  · rw [if_pos h]
    rfl

/-- The fallback accumulation over the storage-tier list, when every backend
query succeeds, computes the starting value plus the sum of each listed
tier's most recent average. -/
lemma fallback_foldlM_ok (q : CwQuery) (g : String → List Datapoint)
    (hq : ∀ s, q s = .ok (g s)) (l : List String) (acc : Nat) :
    l.foldlM (fallbackStep q) acc =
      .ok (acc + (l.map (fun sc => latestAverage (g sc))).sum) := by
  induction l generalizing acc with
  | nil =>
    simp only [List.foldlM_nil, List.map_nil, List.sum_nil, Nat.add_zero]
    rfl
  | cons sc rest ih =>
    rw [List.foldlM_cons, fallbackStep_ok q g hq acc sc]
    simp only [exceptOkBind, ih, List.map_cons, List.sum_cons, Except.ok.injEq]
    omega

/-- When every backend query succeeds, the metrics-path body returns the
primary-tier latest average when that tier has datapoints, and otherwise the
sum of the latest averages over all enumerated tiers. -/
lemma bucketSizeBytes_ok (q : CwQuery) (g : String → List Datapoint)
    (hq : ∀ s, q s = .ok (g s)) :
    bucketSizeBytes q =
      .ok (if g "StandardStorage" ≠ [] then latestAverage (g "StandardStorage")
           else (storage_classes.map (fun sc => latestAverage (g sc))).sum) := by
  unfold bucketSizeBytes
  rw [hq "StandardStorage"]
  simp only [exceptOkBind]
  by_cases h : g "StandardStorage" = []
  · rw [if_neg (fun hc => hc h), if_neg (fun hc => hc h),
      fallback_foldlM_ok q g hq storage_classes 0, Nat.zero_add]
  · rw [if_pos h, if_pos h]
    rfl

/-- C1: with a responsive backend, the metrics-path size query returns the
most recent daily datapoint of the primary storage tier whenever that tier
has a datapoint (and that datapoint really is the one with maximal
timestamp); when the primary tier is empty it returns the sum of the latest
datapoint across the enumerated storage tiers, an empty tier contributing
zero; and when every tier is empty the result is 0, not an error. -/
theorem C1_metrics_primary_then_fallback (q : CwQuery)
    (g : String → List Datapoint) (bucket : String)
    (hq : ∀ s, q s = .ok (g s)) :
    (g "StandardStorage" ≠ [] →
      get_bucket_size_cloudwatch q bucket =
        (bucket, latestAverage (g "StandardStorage")) ∧
      ∀ d, latestDatapoint (g "StandardStorage") = some d →
        d ∈ g "StandardStorage" ∧
        ∀ d2 ∈ g "StandardStorage", d2.timestamp ≤ d.timestamp) ∧
    (g "StandardStorage" = [] →
      get_bucket_size_cloudwatch q bucket =
        (bucket, (storage_classes.map (fun sc => latestAverage (g sc))).sum)) ∧
    (g "StandardStorage" = [] → (∀ sc ∈ storage_classes, g sc = []) →
      get_bucket_size_cloudwatch q bucket = (bucket, 0)) := by
  have hmain := bucketSizeBytes_ok q g hq
  refine ⟨?_, ?_, ?_⟩
  · intro h
    refine ⟨?_, fun d hd => latestDatapoint_spec _ d hd⟩
    rw [if_pos h] at hmain
    unfold get_bucket_size_cloudwatch
    rw [hmain]
  · intro h
    rw [if_neg (fun hc => hc h)] at hmain
    unfold get_bucket_size_cloudwatch
    rw [hmain]
  · intro h hall
    rw [if_neg (fun hc => hc h)] at hmain
    unfold get_bucket_size_cloudwatch
    rw [hmain]
    have hz : (storage_classes.map (fun sc => latestAverage (g sc))).sum = 0 := by
      apply List.sum_eq_zero
      intro x hx
      obtain ⟨sc, hsc, rfl⟩ := List.mem_map.mp hx
      rw [hall sc hsc]
      rfl
    rw [hz]

/-- Concrete backend data for the metrics-path witness: only the Glacier
tier has datapoints, the most recent one carrying average 42. -/
def cwDemoData : String → List Datapoint :=
  fun s => if s = "GlacierStorage" then [⟨1, 7⟩, ⟨3, 42⟩, ⟨2, 9⟩] else []

/-- The always-successful backend built from the demo data. -/
def cwDemoQuery : CwQuery := fun s => .ok (cwDemoData s)

/-- Witness for C1 at a concrete backend: the hypothesis holds, the theorem
applies, and the fallback sum concretely evaluates to the Glacier tier value
42. -/
theorem C1_metrics_witness :
    (∀ s, cwDemoQuery s = .ok (cwDemoData s)) ∧
    ((cwDemoData "StandardStorage" ≠ [] →
      get_bucket_size_cloudwatch cwDemoQuery "demo" =
        ("demo", latestAverage (cwDemoData "StandardStorage")) ∧
      ∀ d, latestDatapoint (cwDemoData "StandardStorage") = some d →
        d ∈ cwDemoData "StandardStorage" ∧
        ∀ d2 ∈ cwDemoData "StandardStorage", d2.timestamp ≤ d.timestamp) ∧
    (cwDemoData "StandardStorage" = [] →
      get_bucket_size_cloudwatch cwDemoQuery "demo" =
        ("demo",
          (storage_classes.map (fun sc => latestAverage (cwDemoData sc))).sum)) ∧
    (cwDemoData "StandardStorage" = [] →
      (∀ sc ∈ storage_classes, cwDemoData sc = []) →
      get_bucket_size_cloudwatch cwDemoQuery "demo" = ("demo", 0))) ∧
    get_bucket_size_cloudwatch cwDemoQuery "demo" = ("demo", 42) := by
  refine ⟨fun s => rfl,
    C1_metrics_primary_then_fallback cwDemoQuery cwDemoData "demo" (fun s => rfl),
    ?_⟩
  decide

/-- C7: replacing the backend of a single bucket with a failing one changes
no other bucket's result, and the failing bucket degrades to size zero: the
whole result list equals the healthy-backend result list except at the
failing bucket. -/
theorem C7_worker_failure_isolated (buckets : List String)
    (cw healthy : String → CwQuery) (b0 : String)
    (hsame : ∀ b, b ≠ b0 → cw b = healthy b)
    (hfail : ∃ e, bucketSizeBytes (cw b0) = .error e) :
    buckets.map (fun b => get_bucket_size_cloudwatch (cw b) b) =
      buckets.map (fun b =>
        if b = b0 then (b0, 0)
        else get_bucket_size_cloudwatch (healthy b) b) := by
  apply List.map_congr_left
  intro b _
  by_cases hb : b = b0
  · subst hb
    obtain ⟨e, he⟩ := hfail
    rw [if_pos rfl]
    unfold get_bucket_size_cloudwatch
    rw [he]
  · rw [if_neg hb, hsame b hb]

/-- The witness backend for C7: the designated bucket raises on every
query, every other bucket sees the healthy demo backend. -/
def cwFailQuery : String → CwQuery :=
  fun b => if b = "badbucket" then (fun _ => .error "boom") else cwDemoQuery

/-- The healthy comparison backend for C7. -/
def cwHealthyQuery : String → CwQuery := fun _ => cwDemoQuery

/-- Witness for C7 at a concrete bucket list containing the failing bucket:
both hypotheses hold, the theorem applies, and the result list concretely
keeps the sibling results at 42 while the failing bucket reports 0. -/
theorem C7_worker_failure_witness :
    (∀ b, b ≠ "badbucket" → cwFailQuery b = cwHealthyQuery b) ∧
    (∃ e, bucketSizeBytes (cwFailQuery "badbucket") = .error e) ∧
    (["alpha", "badbucket", "beta"].map
        (fun b => get_bucket_size_cloudwatch (cwFailQuery b) b) =
      ["alpha", "badbucket", "beta"].map
        (fun b =>
          if b = "badbucket" then ("badbucket", 0)
          else get_bucket_size_cloudwatch (cwHealthyQuery b) b)) ∧
    ["alpha", "badbucket", "beta"].map
        (fun b => get_bucket_size_cloudwatch (cwFailQuery b) b) =
      [("alpha", 42), ("badbucket", 0), ("beta", 42)] := by
  refine ⟨?_, ⟨"boom", rfl⟩, ?_, by decide⟩
  · intro b hb
    unfold cwFailQuery cwHealthyQuery
    rw [if_neg hb]
  · exact C7_worker_failure_isolated ["alpha", "badbucket", "beta"]
      cwFailQuery cwHealthyQuery "badbucket"
      (fun b hb => by unfold cwFailQuery cwHealthyQuery; rw [if_neg hb])
      ⟨"boom", rfl⟩

/-! ### Human-readable size formatting
    (format_size in s3_bucket_sizes_fast.py, six units up to PB, and in
     s3_bucket_sizes_cli.py, five units up to TB)

The Python loop divides a float by 1024.  Dividing a binary float by 1024 is
exact, and every comparison against 1024 the loop makes happens below
1024^5 = 2^50 < 2^53, where the float holds the integer exactly; so the
loop is modelled with exact rational arithmetic.  The `.2f` rendering
correctly rounds the exact binary value to two decimals with ties going to
the even hundredth; ties are reachable (1152 bytes scales to 1.125, whose
hundredths value 112.5 Python renders as 1.12), so the model implements
round-half-to-even on `x * 100` directly. -/

/-- `max_workers = min(20, len(bucket_names))`. -/
def max_workers (n : Nat) : Nat := min 20 n

/-- `bucket_sizes.sort(key=lambda x: x[1], reverse=True)`: stable sort by
size, descending. -/
def sort_by_size_desc (l : List (String × Nat)) : List (String × Nat) :=
  l.mergeSort (fun a b => decide (b.2 ≤ a.2))

/-- The fan-out collection of `main`: every submitted bucket yields exactly
one worker result; `as_completed` hands the results back in an arbitrary
completion order, modelled as an arbitrary permutation `arrival` of the
submitted bucket list; the collected list is then re-sorted by size
descending before display. -/
def fan_out_collect (worker : String → String × Nat) (arrival : List String) :
    List (String × Nat) :=
  sort_by_size_desc (arrival.map worker)

/-- C5: whatever order the workers complete in, the displayed collection is
a permutation of one result per submitted bucket — each bucket name occurs
exactly as often as it was submitted, so nothing is missing or duplicated —
and it is sorted by size in descending order; the worker pool itself is
non-empty whenever there are buckets. -/
theorem C5_fan_out_complete_and_sorted (buckets arrival : List String)
    (worker : String → String × Nat)
    (hperm : arrival.Perm buckets)
    (hname : ∀ b, (worker b).1 = b) :
    (fan_out_collect worker arrival).Perm (buckets.map worker) ∧
    (fan_out_collect worker arrival).Sorted
      (fun a b : String × Nat => b.2 ≤ a.2) ∧
    (∀ b, ((fan_out_collect worker arrival).map Prod.fst).count b =
      buckets.count b) ∧
    (0 < buckets.length → 0 < max_workers buckets.length) := by
  have hperm2 : (fan_out_collect worker arrival).Perm (buckets.map worker) :=
    (List.mergeSort_perm (arrival.map worker) _).trans (hperm.map worker)
  refine ⟨hperm2, ?_, ?_, ?_⟩
  · have htrans : ∀ a b c : String × Nat,
        (fun x y : String × Nat => decide (y.2 ≤ x.2)) a b = true →
        (fun x y : String × Nat => decide (y.2 ≤ x.2)) b c = true →
        (fun x y : String × Nat => decide (y.2 ≤ x.2)) a c = true := by
      intro a b c hab hbc
      simp only [decide_eq_true_eq] at hab hbc ⊢
      omega
    have htotal : ∀ a b : String × Nat,
        ((fun x y : String × Nat => decide (y.2 ≤ x.2)) a b ||
         (fun x y : String × Nat => decide (y.2 ≤ x.2)) b a) = true := by
      intro a b
      simp only [Bool.or_eq_true, decide_eq_true_eq]
      omega
    have hs := List.sorted_mergeSort htrans htotal (arrival.map worker)
    exact hs.imp (fun h => of_decide_eq_true h)
  · intro b
    have hfst : (buckets.map worker).map Prod.fst = buckets := by
      rw [List.map_map]
      calc buckets.map (Prod.fst ∘ worker)
          = buckets.map id := List.map_congr_left (fun a _ => hname a)
        _ = buckets := List.map_id buckets
    rw [(hperm2.map Prod.fst).count_eq b, hfst]
  · intro hpos
    unfold max_workers
    omega

/-- The concrete worker for the fan-out witness: result sizes 7, 99, 3. -/
def demoWorker : String → String × Nat :=
  fun b => (b, if b = "alpha" then 7 else if b = "beta" then 99 else 3)

/-- Witness for C5 at three buckets arriving out of submission order: the
hypotheses hold, the theorem applies, and the final list concretely comes
out complete and sorted descending. -/
theorem C5_fan_out_witness :
    (["beta", "gamma", "alpha"].Perm ["alpha", "beta", "gamma"]) ∧
    (∀ b, (demoWorker b).1 = b) ∧
    ((fan_out_collect demoWorker ["beta", "gamma", "alpha"]).Perm
        (["alpha", "beta", "gamma"].map demoWorker) ∧
     (fan_out_collect demoWorker ["beta", "gamma", "alpha"]).Sorted
        (fun a b : String × Nat => b.2 ≤ a.2) ∧
     (∀ b, ((fan_out_collect demoWorker ["beta", "gamma", "alpha"]).map
          Prod.fst).count b = ["alpha", "beta", "gamma"].count b) ∧
     (0 < (["alpha", "beta", "gamma"] : List String).length →
       0 < max_workers (["alpha", "beta", "gamma"] : List String).length)) ∧
    fan_out_collect demoWorker ["beta", "gamma", "alpha"] =
      [("beta", 99), ("alpha", 7), ("gamma", 3)] := by
  refine ⟨by decide, fun b => rfl,
    C5_fan_out_complete_and_sorted ["alpha", "beta", "gamma"]
      ["beta", "gamma", "alpha"] demoWorker (by decide) (fun b => rfl),
    by simp [fan_out_collect, sort_by_size_desc, demoWorker, List.mergeSort,
      List.merge]⟩

/-! ### CLI-delegated path (get_bucket_size_cli in s3_bucket_sizes_cli.py) -/

/-- Python regex class `\s` over the ASCII whitespace characters. -/
def isWS (c : Char) : Bool :=
  c == ' ' || c == '\t' || c == '\n' || c == '\r' ||
  c == '\x0b' || c == '\x0c'

/-- Python regex class `\d` over ASCII digits. -/
def isDigitCh (c : Char) : Bool := '0' ≤ c && c ≤ '9'

/-- `int()` of a captured digit run. -/
def digitsToNat (ds : List Char) : Nat :=
  ds.foldl (fun a c => a * 10 + (c.toNat - '0'.toNat)) 0

/-- One anchored attempt of the pattern `Total Size:\s+(\d+)`: the literal,
then at least one whitespace character, then the maximal run of at least
one digit.  `\s` and `\d` are disjoint, so greedy matching never needs to
backtrack. -/
def matchAt (cs : List Char) : Option Nat :=
  if "Total Size:".data.isPrefixOf cs then
    let rest := cs.drop "Total Size:".data.length
    let ws := rest.takeWhile isWS
    let ds := (rest.dropWhile isWS).takeWhile isDigitCh
    if ws ≠ [] ∧ ds ≠ [] then some (digitsToNat ds) else none
  else none

/-- `re.search(r'Total Size:\s+(\d+)', output)`: try the pattern at each
position from the left and return the first capture. -/
def searchTotalSize : List Char → Option Nat
  | [] => none
  | c :: rest =>
    match matchAt (c :: rest) with
    | some n => some n
    | none => searchTotalSize rest

/-- Outcome of one `subprocess.run` invocation, as the caller observes it:
normal completion with exit code and captured streams, the timeout
exception, the missing-binary exception, or any other raised exception. -/
inductive RunResult where
  | completed (returncode : Int) (stdout stderr : String)
  | timedOut
  | toolMissing
  | otherError (msg : String)
deriving DecidableEq

/-- Observable result of `get_bucket_size_cli`: either the process exits
with a fatal status or a per-bucket result is returned and processing
continues. -/
inductive CliOutcome where
  | fatalExit (code : Nat)
  | result (pair : String × Nat)
deriving DecidableEq

/-- `cmd = ['aws', 's3', 'ls', f's3://.../', '--recursive', '--summarize']`
(s3_bucket_sizes_cli.py line 30). -/
def awsCliCmd (bucket : String) : List String :=
  ["aws", "s3", "ls", "s3://" ++ bucket ++ "/", "--recursive", "--summarize"]

/-- `get_bucket_size_cli`: run the external tool on the bucket; a non-zero
exit or any exception other than a missing binary degrades to a zero
result, a missing binary exits the process with status 1, and the parsed
summary value (or 0 when the summary line is absent) is returned
otherwise. -/
def get_bucket_size_cli (run : List String → RunResult)
    (bucket_name : String) : CliOutcome :=
  match run (awsCliCmd bucket_name) with
  | .completed rc out _ =>
    if rc ≠ 0 then .result (bucket_name, 0)
    else
      match searchTotalSize out.data with
      | some n => .result (bucket_name, n)
      | none => .result (bucket_name, 0)
  | .timedOut => .result (bucket_name, 0)
  | .toolMissing => .fatalExit 1
  | .otherError _ => .result (bucket_name, 0)

/-- C6: the CLI path invokes the tool with exactly the arguments
`aws s3 ls s3://bucket/ --recursive --summarize`; a missing binary exits
fatally with status 1, a timeout and any other failure or non-zero exit
return a zero result for that bucket and continue, an absent summary line
(empty bucket) returns zero without error, and a present summary line
returns its parsed byte count. -/
theorem C6_cli_error_handling (run : List String → RunResult)
    (bucket : String) :
    (run (awsCliCmd bucket) = .toolMissing →
      get_bucket_size_cli run bucket = .fatalExit 1) ∧
    (run (awsCliCmd bucket) = .timedOut →
      get_bucket_size_cli run bucket = .result (bucket, 0)) ∧
    (∀ msg, run (awsCliCmd bucket) = .otherError msg →
      get_bucket_size_cli run bucket = .result (bucket, 0)) ∧
    (∀ rc out err, run (awsCliCmd bucket) = .completed rc out err → rc ≠ 0 →
      get_bucket_size_cli run bucket = .result (bucket, 0)) ∧
    (∀ out err, run (awsCliCmd bucket) = .completed 0 out err →
      searchTotalSize out.data = none →
      get_bucket_size_cli run bucket = .result (bucket, 0)) ∧
    (∀ out err n, run (awsCliCmd bucket) = .completed 0 out err →
      searchTotalSize out.data = some n →
      get_bucket_size_cli run bucket = .result (bucket, n)) := by
  refine ⟨?_, ?_, ?_, ?_, ?_, ?_⟩
  · intro h
    unfold get_bucket_size_cli
    rw [h]
  · intro h
    unfold get_bucket_size_cli
    rw [h]
  · intro msg h
    unfold get_bucket_size_cli
    rw [h]
  · intro rc out err h hrc
    unfold get_bucket_size_cli
    simp only [h]
    rw [if_pos hrc]
  · intro out err h hs
    unfold get_bucket_size_cli
    simp only [h]
    rw [if_neg (fun hc => hc rfl), hs]
  · intro out err n h hs
    unfold get_bucket_size_cli
    simp only [h]
    rw [if_neg (fun hc => hc rfl), hs]

/-- Witness subprocess behaviours for C6: missing binary, timeout, access
failure, empty bucket, and a realistic summarized listing. -/
def runToolMissing : List String → RunResult := fun _ => .toolMissing

/-- Witness subprocess behaviour: the tool times out. -/
def runTimedOut : List String → RunResult := fun _ => .timedOut

/-- Witness subprocess behaviour: the tool exits non-zero. -/
def runAccessDenied : List String → RunResult :=
  fun _ => .completed 1 "" "fatal error: AccessDenied"

/-- Witness subprocess behaviour: empty bucket, no summary line. -/
def runEmptyBucket : List String → RunResult := fun _ => .completed 0 "" ""

/-- Witness subprocess behaviour: a listing whose summary reports
104857600 bytes. -/
def runWithSummary : List String → RunResult :=
  fun _ => .completed 0
    "2024-01-01 12:00:00  104857600 data.bin\nTotal Objects: 1\n   Total Size: 104857600\n"
    ""

/-- Witness for C6: each error-handling case of the theorem applies at a
concrete subprocess behaviour, and the summary line concretely parses to
104857600 bytes. -/
theorem C6_cli_witness :
    (runToolMissing (awsCliCmd "mybucket") = .toolMissing ∧
      get_bucket_size_cli runToolMissing "mybucket" = .fatalExit 1) ∧
    (runTimedOut (awsCliCmd "mybucket") = .timedOut ∧
      get_bucket_size_cli runTimedOut "mybucket" = .result ("mybucket", 0)) ∧
    (runAccessDenied (awsCliCmd "mybucket") =
        .completed 1 "" "fatal error: AccessDenied" ∧
      get_bucket_size_cli runAccessDenied "mybucket" =
        .result ("mybucket", 0)) ∧
    (runEmptyBucket (awsCliCmd "mybucket") = .completed 0 "" "" ∧
      get_bucket_size_cli runEmptyBucket "mybucket" =
        .result ("mybucket", 0)) ∧
    get_bucket_size_cli runWithSummary "mybucket" =
      .result ("mybucket", 104857600) := by
  refine ⟨⟨rfl, (C6_cli_error_handling runToolMissing "mybucket").1 rfl⟩,
    ⟨rfl, (C6_cli_error_handling runTimedOut "mybucket").2.1 rfl⟩,
    ⟨rfl, (C6_cli_error_handling runAccessDenied "mybucket").2.2.2.1
      1 "" "fatal error: AccessDenied" rfl (by decide)⟩,
    ⟨rfl, (C6_cli_error_handling runEmptyBucket "mybucket").2.2.2.2.1
      "" "" rfl (by decide)⟩,
    (C6_cli_error_handling runWithSummary "mybucket").2.2.2.2.2
      "2024-01-01 12:00:00  104857600 data.bin\nTotal Objects: 1\n   Total Size: 104857600\n"
      "" 104857600 rfl (by decide)⟩

/-! ### Bucket enumeration
    (get_all_bucket_names in s3_bucket_sizes_fast.py with exclusion filter,
     and in s3_bucket_sizes_cli.py without it)

The function is observed through the pair (printed messages, returned
list): a caught listing exception prints an error line and returns the
empty list, a successful listing prints nothing. -/

/-- Python `needle in hay` on character sequences. -/
def containsSub (needle : String) (hay : List Char) : Bool :=
  decide (needle.data <:+: hay)

/-- The exclusion conditions of s3_bucket_sizes_fast.py lines 22-36 on the
name lowercased character by character (`bucket['Name'].lower()`).
`re.match(r'.*db-.*', name)` with its leading `.*` is an
anywhere-substring test for `db-`; bucket names cannot contain the newline
that `.` refuses to cross. -/
def bucket_name_filter (name : String) : Bool :=
  let ln := name.data.map Char.toLower
  !(containsSub "lifecycle" ln) && !(containsSub "logs" ln) &&
    !(containsSub "db-" ln)

/-- `get_all_bucket_names` of s3_bucket_sizes_fast.py: on success the
filtered names in listing order with no message, on a caught exception an
error message and the empty list. -/
def get_all_bucket_names (listing : Except String (List String)) :
    List String × List String :=
  match listing with
  | .error e => (["❌ Error listando buckets: " ++ e], [])
  | .ok bs => ([], bs.filter bucket_name_filter)

/-- `get_all_bucket_names` of s3_bucket_sizes_cli.py: same shape without
the exclusion filter. -/
def get_all_bucket_names_cli (listing : Except String (List String)) :
    List String × List String :=
  match listing with
  | .error e => (["❌ Error listando buckets: " ++ e], [])
  | .ok bs => ([], bs)

/-- C8: enumeration returns the bucket names as an ordered subsequence of
the listing (order preserved by the exclusion filter), an empty result is a
valid success with no message — even when every name was filtered out — and
the observable outcome of a failed (for example unauthenticated) listing,
which prints an error line, differs from every successful outcome. -/
theorem C8_enumeration_empty_vs_error (bs : List String) (e : String) :
    (get_all_bucket_names (.ok bs)).2.Sublist bs ∧
    (get_all_bucket_names (.ok bs)).1 = [] ∧
    get_all_bucket_names (.error e) ≠ get_all_bucket_names (.ok bs) ∧
    (get_all_bucket_names_cli (.ok bs)).2 = bs ∧
    get_all_bucket_names_cli (.error e) ≠ get_all_bucket_names_cli (.ok bs) ∧
    get_all_bucket_names (.ok ["team-logs-archive"]) = ([], []) := by
  refine ⟨List.filter_sublist bs, rfl, ?_, rfl, ?_, by decide⟩
  · intro hcontra
    have h1 : (get_all_bucket_names (.error e)).1 =
        (get_all_bucket_names (.ok bs)).1 := by rw [hcontra]
    simp [get_all_bucket_names] at h1
  · intro hcontra
    have h1 : (get_all_bucket_names_cli (.error e)).1 =
        (get_all_bucket_names_cli (.ok bs)).1 := by rw [hcontra]
    simp [get_all_bucket_names_cli] at h1

/-! ### Bucket-name validation
    (BUCKET_REGEX in s3_folder_sizes.py lines 44-48 and
     s3_folder_sizes_2level.py lines 66-70) -/

/-- The character class `[a-z0-9.\-_]`. -/
def bucketClassChar (c : Char) : Bool :=
  ('a' ≤ c && c ≤ 'z') || ('0' ≤ c && c ≤ '9') ||
    c == '.' || c == '-' || c == '_'

/-- Backtracking matcher for `^[a-z0-9.\-_]{3,63}$` under Python `re.match`
semantics, where `$` matches at the end of the string or just before a
single trailing newline.  Having consumed `n` class characters, the matcher
may consume another (while fewer than 63 are consumed) or stop, requiring
at least 3 consumed characters and then the end of the string, possibly
preceded by one final newline. -/
def bucketMatchFrom : List Char → Nat → Bool
  | [], n => decide (3 ≤ n)
  | c :: rest, n =>
    (bucketClassChar c && decide (n < 63) && bucketMatchFrom rest (n + 1)) ||
    (decide (3 ≤ n) && decide (c :: rest = ['\n']))

/-- `re.match(BUCKET_REGEX, bucket)` as a Boolean. -/
def bucket_regex_match (s : String) : Bool := bucketMatchFrom s.data 0

/-- The body language of the pattern: between 3 and 63 characters, all in
the class. -/
def bucketPatternBody (l : List Char) : Prop :=
  3 ≤ l.length ∧ l.length ≤ 63 ∧ ∀ c ∈ l, bucketClassChar c = true

/-- The language of the anchored pattern under Python `$` semantics: the
whole string is a pattern body, or everything before a single trailing
newline is. -/
def pythonBucketAccepts (s : String) : Prop :=
  bucketPatternBody s.data ∨
  ∃ l, s.data = l ++ ['\n'] ∧ bucketPatternBody l

/-- The validation block around the regex: exit with status 1 when the
regex rejects the name, continue otherwise. -/
def bucket_validation (s : String) : Option Nat :=
  if bucket_regex_match s then none else some 1

/-- The matcher accepts from state `n` exactly when some prefix of class
characters extends the consumed count into [3, 63] and is followed by the
end of input or a single final newline. -/
lemma bucketMatchFrom_iff (cs : List Char) : ∀ n, n ≤ 63 →
    (bucketMatchFrom cs n = true ↔
      ∃ k, k ≤ cs.length ∧ (∀ c ∈ cs.take k, bucketClassChar c = true) ∧
        3 ≤ n + k ∧ n + k ≤ 63 ∧ (cs.drop k = [] ∨ cs.drop k = ['\n'])) := by
  induction cs with
  | nil =>
    intro n hn
    simp only [bucketMatchFrom, decide_eq_true_eq]
    constructor
    · intro h3
      exact ⟨0, by simp, by simp, by omega, by omega, Or.inl rfl⟩
    · rintro ⟨k, hk, _, h3, _, _⟩
      have hk0 : k = 0 := by simpa using hk
      omega
  | cons c rest ih =>
    intro n hn
    simp only [bucketMatchFrom, Bool.or_eq_true, Bool.and_eq_true,
      decide_eq_true_eq]
    constructor
    · rintro (⟨⟨hc, hlt⟩, hrec⟩ | ⟨h3, heq⟩)
      · obtain ⟨k, hk, hcls, hk3, hk63, hend⟩ := (ih (n + 1) (by omega)).mp hrec
        refine ⟨k + 1, by simpa using Nat.succ_le_succ hk, ?_, by omega,
          by omega, ?_⟩
        · intro x hx
          rw [List.take_succ_cons] at hx
          rcases List.mem_cons.mp hx with rfl | hx
          · exact hc
          · exact hcls x hx
        · rw [List.drop_succ_cons]
          exact hend
      · exact ⟨0, by simp, by simp, by omega, by omega, Or.inr heq⟩
    · rintro ⟨k, hk, hcls, hk3, hk63, hend⟩
      cases k with
      | zero =>
        right
        refine ⟨by omega, ?_⟩
        rcases hend with h | h
        · exact absurd h (by simp)
        · exact h
      | succ k2 =>
        left
        have hc : bucketClassChar c = true := by
          apply hcls c
          rw [List.take_succ_cons]
          exact List.mem_cons_self _ _
        refine ⟨⟨hc, by omega⟩, ?_⟩
        apply (ih (n + 1) (by omega)).mpr
        refine ⟨k2, by simpa using hk, ?_, by omega, by omega, ?_⟩
        · intro x hx
          apply hcls x
          rw [List.take_succ_cons]
          exact List.mem_cons_of_mem _ hx
        · rw [List.drop_succ_cons] at hend
          exact hend

/-- C9: validation accepts a bucket name exactly when it lies in the
language of `^[a-z0-9.\-_]{3,63}$` (under the Python `re.match` semantics
the code runs, in which `$` also matches just before one trailing
newline), exiting with status 1 otherwise; in particular the two
specified examples are rejected and accepted respectively. -/
theorem C9_bucket_name_validation (s : String) :
    (bucket_regex_match s = true ↔ pythonBucketAccepts s) ∧
    (bucket_validation s = some 1 ↔ ¬ pythonBucketAccepts s) ∧
    bucket_regex_match "AB_invalid_UPPER!" = false ∧
    bucket_regex_match "valid-bucket.name_123" = true ∧
    bucket_validation "AB_invalid_UPPER!" = some 1 ∧
    bucket_validation "valid-bucket.name_123" = none := by
  have hiff : bucket_regex_match s = true ↔ pythonBucketAccepts s := by
    unfold bucket_regex_match pythonBucketAccepts bucketPatternBody
    rw [bucketMatchFrom_iff s.data 0 (by omega)]
    constructor
    · rintro ⟨k, hk, hcls, hk3, hk63, hend⟩
      rcases hend with h | h
      · left
        have hlen : s.data.length ≤ k := by
          rwa [List.drop_eq_nil_iff] at h
        have hkeq : k = s.data.length := le_antisymm hk hlen
        subst hkeq
        rw [List.take_length] at hcls
        exact ⟨by omega, by omega, hcls⟩
      · right
        refine ⟨s.data.take k, ?_, ?_, ?_, ?_⟩
        · conv_lhs => rw [← List.take_append_drop k s.data]
          rw [h]
        · rw [List.length_take]
          omega
        · rw [List.length_take]
          omega
        · exact hcls
    · rintro (⟨h3, h63, hcls⟩ | ⟨l, hl, h3, h63, hcls⟩)
      · refine ⟨s.data.length, le_refl _, ?_, by omega, by omega, Or.inl ?_⟩
        · rw [List.take_length]
          exact hcls
        · simp
      · refine ⟨l.length, ?_, ?_, by omega, by omega, Or.inr ?_⟩
        · rw [hl, List.length_append]
          omega
        · rw [hl, List.take_left]
          exact hcls
        · rw [hl, List.drop_left]
  refine ⟨hiff, ?_, by decide, by decide, by decide, by decide⟩
  unfold bucket_validation
  by_cases hm : bucket_regex_match s = true
  · rw [if_pos hm]
    constructor
    · intro hcontra
      exact absurd hcontra (by simp)
    · intro hno
      exact absurd (hiff.mp hm) hno
  · rw [if_neg hm]
    constructor
    · intro _ hacc
      exact hm (hiff.mpr hacc)
    · intro _
      rfl

end S3Scripts
